import Mathlib

/-!
# Verification development for the trace-agent entry point and the GCE metadata client

Two source files are embedded:

* `pkg/util/gce/gce.go`   : `getResponse`, `GetHostname`, `GetHostAlias`, `HostnameProvider`
* `pkg/trace/agent/run.go`: `Run`

Go strings are modelled by Lean strings.  The only string operations the
sources perform are concatenation, the zero-length test and a split on the
ASCII separator ".", which act alike on bytes and on characters of valid
UTF-8 text.  A Go `(string, error)` result is a pair whose second component is
`none` for a nil error and `some msg` for an error with text `msg`.
-/

namespace Gce

/-! ## The outside world of `gce.go` -/

/-- What the network gives back for one GET request, step by step as
`getResponse` consumes it. -/
inductive Fetch where
  /-- Failure of `http.NewRequest` with this error text. -/
  | requestError (e : String)
  /-- Failure of `client.Do` with this error text (transport error, timeout). -/
  | transportError (e : String)
  /-- Success of `client.Do` with this status code; `body` is what
  `ioutil.ReadAll(res.Body)` would give: an error text or the whole body. -/
  | response (status : Int) (body : Except String String)

/-- The metadata service: the outcome of a GET for every URL. -/
abbrev World := String → Fetch

/-- The calls `getResponse` makes on the outside world, in order. -/
inductive HttpEvent where
  | newRequest (method url : String)
  | headerAdd (key value : String)
  | clientDo (timeoutMs : Nat)
  | readAll
  | bodyClose
  deriving DecidableEq, Repr

/-- Value of `timeout`, in milliseconds (`300 * time.Millisecond`). -/
def timeout : Nat := 300

/-- Default value of the package variable `metadataURL`. -/
def metadataURL : String := "http://169.254.169.254/computeMetadata/v1"

/-- Rendering of the verb `%d` of `fmt` on an `int`. -/
def fmtInt (n : Int) : String := toString n

/-! ## `strings.SplitN` (Go standard library), for a one-character separator -/

/-- Go `strings.IndexByte`: position of the first occurrence of `sep`, `none`
standing for the result `-1`. -/
def IndexByte : List Char → Char → Option Nat
  | [], _ => none
  | c :: cs, sep => if c = sep then some 0 else (IndexByte cs sep).map (· + 1)

/-- The loop of `strings.genSplit` with `sepSave = 0`: at most `k` cuts. -/
def splitLoop (sep : Char) : Nat → List Char → List (List Char)
  | 0, s => [s]
  | k + 1, s =>
    match IndexByte s sep with
    | none => [s]
    | some m => s.take m :: splitLoop sep k (s.drop (m + 1))

/-- Go `strings.SplitN(s, sep, n)` for `n ≥ 0` and a separator of one
character: `n = 0` gives no element, and `n` is capped by `len(s) + 1`. -/
def SplitN (s : String) (sep : Char) (n : Nat) : List String :=
  if n = 0 then []
  else (splitLoop sep (min n (s.data.length + 1) - 1) s.data).map String.mk

/-! ## `gce.go` -/

/-- Source `getResponse` (gce.go, lines 65-97): the returned pair and the calls
made on the way. -/
def getResponse (w : World) (url : String) : (String × Option String) × List HttpEvent :=
  match w url with
  | .requestError e => (("", some e), [.newRequest "GET" url])
  | .transportError e =>
    (("", some e),
      [.newRequest "GET" url, .headerAdd "Metadata-Flavor" "Google", .clientDo timeout])
  | .response status body =>
    if status ≠ 200 then
      (("", some ("status code " ++ fmtInt status ++ " trying to GET " ++ url)),
        [.newRequest "GET" url, .headerAdd "Metadata-Flavor" "Google", .clientDo timeout])
    else
      match body with
      | .error e =>
        (("", some ("GCE hostname, error reading response body: " ++ e)),
          [.newRequest "GET" url, .headerAdd "Metadata-Flavor" "Google", .clientDo timeout,
            .readAll, .bodyClose])
      | .ok all =>
        if all.data.length ≤ 0 then
          (("", some "empty response body"),
            [.newRequest "GET" url, .headerAdd "Metadata-Flavor" "Google", .clientDo timeout,
              .readAll, .bodyClose])
        else
          ((all, none),
            [.newRequest "GET" url, .headerAdd "Metadata-Flavor" "Google", .clientDo timeout,
              .readAll, .bodyClose])

/-- Source `GetHostname` (gce.go, lines 41-48); `base` is the package variable
`metadataURL`. -/
def GetHostname (w : World) (base : String) : String × Option String :=
  match (getResponse w (base ++ "/instance/hostname")).1 with
  | (_, some err) => ("", some ("unable to retrieve hostname from GCE: " ++ err))
  | (hostname, none) => (hostname, none)

/-- Source `GetHostAlias` (gce.go, lines 50-63).  The outer `none` stands for
the run-time panic of the index expression `[0]` on an empty slice. -/
def GetHostAlias (w : World) (base : String) : Option (String × Option String) :=
  match (getResponse w (base ++ "/instance/hostname")).1 with
  | (_, some err) => some ("", some ("unable to retrieve hostname from GCE: " ++ err))
  | (instanceName, none) =>
    match SplitN instanceName '.' 2 with
    | [] => none
    | instanceName :: _ =>
      match (getResponse w (base ++ "/project/project-id")).1 with
      | (_, some err) => some ("", some ("unable to retrieve project ID from GCE: " ++ err))
      | (projectID, none) => some (instanceName ++ "." ++ projectID, none)

/-- Source `HostnameProvider` (gce.go, lines 99-102). -/
def HostnameProvider (w : World) (base : String) : String × Option String :=
  GetHostname w base

/-! ## Notions used by the statements about `gce.go` -/

/-- The text `sub` occurs inside the text `msg`. -/
def Embeds (msg sub : String) : Prop := sub.data <:+: msg.data

/-- Value of a decimal digit character, `none` for any other character. -/
def digitValue (c : Char) : Option Nat :=
  if '0' ≤ c ∧ c ≤ '9' then some (c.toNat - '0'.toNat) else none

/-- Reads the digits `cs`, most significant first, after the value `acc` of
the digits already read; `none` when a character is not a digit. -/
def readAcc : Nat → List Char → Option Nat
  | acc, [] => some acc
  | acc, c :: cs =>
    match digitValue c with
    | some v => readAcc (10 * acc + v) cs
    | none => none

/-- The number an unsigned decimal numeral denotes; `none` for the empty text
and for a text with a character that is not a digit. -/
def readDecimal (cs : List Char) : Option Nat :=
  match cs with
  | [] => none
  | _ :: _ => readAcc 0 cs

/-- The text `d` is a decimal representation of the integer `s`: digits that
denote `s` when `s` is not negative, a minus sign followed by digits that
denote `-s` when it is. -/
def IsDecimalOf (d : String) (s : Int) : Prop :=
  (0 ≤ s ∧ readDecimal d.data = some s.toNat) ∨
    (s < 0 ∧ ∃ ds, d.data = '-' :: ds ∧ readDecimal ds = some (-s).toNat)

/-- A world answering every request with the given status and body. -/
def constWorld (status : Int) (body : String) : World :=
  fun _ => .response status (.ok body)

/-- A world serving `h` at the hostname endpoint and `p` everywhere else, both
with status 200. -/
def aliasWorld (base h p : String) : World :=
  fun url => if url = base ++ "/instance/hostname" then .response 200 (.ok h)
    else .response 200 (.ok p)

/-- The part of `h` before its first "." (all of `h` when there is none), as
the specification words it. -/
def firstLabel (h : String) : String := String.mk (h.data.takeWhile (· ≠ '.'))

/-- White space in the sense of Go `unicode.IsSpace`, on the Latin-1 range. -/
def isSpace (c : Char) : Bool :=
  c = ' ' ∨ c = '\t' ∨ c = '\n' ∨ c = '\x0b' ∨ c = '\x0c' ∨ c = '\r' ∨ c = '\x85' ∨ c = '\xa0'

/-- The body with leading and trailing white space removed, as the
specification words it (Go `strings.TrimSpace`). -/
def specTrimSpace (s : String) : String :=
  String.mk ((s.data.dropWhile isSpace).reverse.dropWhile isSpace).reverse

end Gce

namespace Agent

/-! ## The outside world of `run.go` -/

/-- The package `flags`: command-line settings read by `Run`. -/
structure Flags where
  ConfigPath : String
  CPUProfile : String
  MemProfile : String
  Version : Bool
  Info : Bool
  PIDFilePath : String

/-- The fields of `config.AgentConfig` that `Run` reads. -/
structure AgentConfig where
  Enabled : Bool
  Hostname : String

/-- What every external call of `Run` gives back.  An `Option String` is a Go
`error`: `none` for nil, `some msg` for an error with text `msg`. -/
structure Env where
  /-- Result of `common.SetupConfig(flags.ConfigPath)` -/
  setupConfig : Option String
  /-- Result of `coreconfig.GetSyslogURI()` -/
  syslogURI : String
  /-- Result of `coreconfig.Datadog.GetString("log_file")` -/
  logFileSetting : String
  /-- Result of `common.DefaultLogFile` -/
  defaultLogFile : String
  /-- Result of `coreconfig.Datadog.GetBool("disable_file_logging")` -/
  disableFileLogging : Bool
  /-- Result of `coreconfig.Datadog.GetString("log_level")` -/
  logLevel : String
  /-- Result of `coreconfig.Datadog.GetBool("syslog_rfc")` -/
  syslogRFC : Bool
  /-- Result of `coreconfig.Datadog.GetBool("log_to_console")` -/
  logToConsole : Bool
  /-- Result of `coreconfig.Datadog.GetBool("log_format_json")` -/
  logFormatJSON : Bool
  /-- Result of `os.Create(flags.CPUProfile)` -/
  createCPUProfile : Option String
  /-- Result of `info.VersionString()` -/
  versionString : String
  /-- Result of `pidfile.WritePID(flags.PIDFilePath)` -/
  writePID : Option String
  /-- Result of `os.Getpid()` -/
  pid : Int
  /-- Result of `config.Load(flags.ConfigPath)` -/
  configLoad : Except String AgentConfig
  /-- Result of `info.InitInfo(cfg)` -/
  initInfo : Option String
  /-- Result of `info.Info(os.Stdout, cfg)` -/
  info : Option String
  /-- Result of `metrics.Configure(cfg, tags)` -/
  metricsConfigure : Option String
  /-- Result of `info.Version` -/
  infoVersion : String
  /-- Result of `time.Now().UTC().UnixNano()` -/
  now : Int
  /-- Whether the blocking call `ta.Run()` ever comes back -/
  mainLoopReturns : Bool
  /-- Result of `os.Create(flags.MemProfile)` -/
  createMemProfile : Option String
  /-- Result of `pprof.Lookup("heap").WriteTo(f, 1)` -/
  heapWriteTo : Option String

/-- The externally visible calls of `Run`, in the order they are made. -/
inductive Event where
  | setupConfig (path : String)
  | logErrorf (msg : String)
  | setupLogger (level logFile syslogURI : String) (rfc console json : Bool)
  | osCreate (path : String)
  | logCritical (msg : String)
  | startCPUProfile (fileOk : Bool)
  | logInfo (msg : String)
  | stopCPUProfile
  | print (text : String)
  | writePID (path : String)
  | osRemove (path : String)
  | configLoad (path : String)
  | exitfPrint (text : String)
  | initInfo
  | info
  | stdoutWriteString (text : String)
  | sleep (nanoseconds : Nat)
  | metricsConfigure (tags : List String)
  | metricsCount (name : String) (value : Int)
  | randSeed (seed : Int)
  | newAgent
  | agentRun
  | runtimeGC
  | heapWriteTo (fileOk : Bool)
  | fileClose
  | logOnPanic (recovered : Option String)
  | crashRecord (cause : String)
  deriving DecidableEq, Repr

/-- A function registered with `defer` in `Run`. -/
inductive Deferred where
  /-- Line 59: `defer watchdog.LogOnPanic()`. -/
  | logOnPanic
  /-- Line 69: `defer pprof.StopCPUProfile()`. -/
  | stopCPUProfile
  /-- lines 85-88: `defer func() { os.Remove(flags.PIDFilePath) }()` -/
  | removePID (path : String)
  deriving DecidableEq, Repr

/-- How the body of `Run` stops. -/
inductive Stop where
  /-- A `return` statement, or the end of the body. -/
  | ret
  /-- Call of `os.Exit(code)`. -/
  | exit (code : Int)
  /-- Call of `panic(e)`. -/
  | panic (e : String)
  /-- Blocked for ever inside `ta.Run()`. -/
  | block
  deriving DecidableEq, Repr

/-- How the process leaves `Run`. -/
inductive Outcome where
  /-- Return of `Run` to its caller: the graceful stop, exit status 0. -/
  | returned
  /-- The process is terminated by `os.Exit(code)`. -/
  | exited (code : Int)
  /-- A panic with value `e` leaves `Run`. -/
  | panicked (e : String)
  /-- Never leaves the main loop. -/
  | running
  deriving DecidableEq, Repr

/-- An execution of `Run`: the calls made and the way it ended. -/
structure Result where
  trace : List Event
  outcome : Outcome
  deriving DecidableEq, Repr

/-- Value of `time.Second`, in nanoseconds. -/
def second : Nat := 1000000000

/-- Source constant `agentDisabledMessage` (run.go, lines 25-29). -/
def agentDisabledMessage : String :=
  "trace-agent not enabled.\nSet env var DD_APM_ENABLED=true or add\napm_enabled: true\nto your datadog.conf file.\nExiting."

/-! ## Helpers of other packages of the repository -/

/-- Modelled from the spec: `watchdog.LogOnPanic` (package `pkg/trace/watchdog`)
is not among the sources.  Section 4.3: Escalate "logs the causing condition
through a global panic/crash recorder and then re-raises it".  With no panic in
flight it does nothing.  The result is the calls made and the panic that leaves
the function. -/
def LogOnPanic (recovered : Option String) : List Event × Option String :=
  match recovered with
  | none => ([], none)
  | some e => ([.crashRecord e], some e)

/-- Modelled from the spec: `osutil.Exitf` (package `pkg/trace/osutil`) is not
among the sources.  Section 6 gives exit status 1 for fatal stage failures and
section 9 says that the source terminates immediately, without running the
scope-exit hooks.  The result is the calls made and the way the body stops. -/
def Exitf (msg : String) : List Event × Stop :=
  ([.exitfPrint msg], .exit 1)

/-- Modelled from the spec: `log.Critical` (package `pkg/util/log`) is not among
the sources.  It is a logging call like `log.Info` and `log.Errorf`: it writes a
record at the highest severity and comes back to its caller, as section 4.1
says of the two calls of stage 14 ("failure here is logged but does not change
the exit outcome"). -/
def logCritical (msg : String) : List Event :=
  [.logCritical msg]

/-! ## Go semantics of `defer`, `return`, `panic` and `os.Exit` -/

/-- Runs the deferred calls, last registered first (the list has the last
registered call at its head), with the panic in flight.  Gives the calls made
and the panic still in flight at the end. -/
def runDeferred : List Deferred → Option String → List Event × Option String
  | [], p => ([], p)
  | .removePID path :: ds, p =>
    ((Event.osRemove path) :: (runDeferred ds p).1, (runDeferred ds p).2)
  | .stopCPUProfile :: ds, p =>
    (Event.stopCPUProfile :: (runDeferred ds p).1, (runDeferred ds p).2)
  | .logOnPanic :: ds, p =>
    (Event.logOnPanic p :: ((LogOnPanic p).1 ++ (runDeferred ds (LogOnPanic p).2).1),
      (runDeferred ds (LogOnPanic p).2).2)

/-- Leaves `Run` after the calls `t`, with the deferred calls `d` registered:
a return and a panic run the deferred calls, `os.Exit` and a blocked main loop
do not. -/
def finish (t : List Event) (d : List Deferred) : Stop → Result
  | .ret =>
    ⟨t ++ (runDeferred d none).1,
      match (runDeferred d none).2 with
      | none => .returned
      | some e => .panicked e⟩
  | .panic e =>
    ⟨t ++ (runDeferred d (some e)).1,
      match (runDeferred d (some e)).2 with
      | none => .returned
      | some e1 => .panicked e1⟩
  | .exit code => ⟨t, .exited code⟩
  | .block => ⟨t, .running⟩

/-! ## `run.go`

`Run` is embedded in four consecutive segments.  Each gives the calls it makes;
the segments that can stop the function also say how.  `Run` then leaves
through `finish`, which runs the deferred calls as Go does. -/

/-- Source `Run`, lines 34-70: global configuration, logger, crash recorder,
CPU profiler.  Gives the calls made and the deferred calls registered, last
registered first. -/
def runStartup (fl : Flags) (env : Env) : List Event × List Deferred :=
  -- Global Agent configuration
  let t := [Event.setupConfig fl.ConfigPath]
  let t :=
    match env.setupConfig with
    | some err => t ++ [.logErrorf ("Failed to setup config " ++ err)]
    | none => t
  -- configure a default logger before anything so we can observe initialization
  let logFile := env.logFileSetting
  let logFile := if logFile = "" then env.defaultLogFile else logFile
  -- this will prevent any logging on file
  let logFile := if env.disableFileLogging then "" else logFile
  let t := t ++ [.setupLogger env.logLevel logFile env.syslogURI env.syslogRFC
    env.logToConsole env.logFormatJSON]
  let d := [Deferred.logOnPanic]
  -- start CPU profiling
  if fl.CPUProfile ≠ "" then
    let t := t ++ [.osCreate fl.CPUProfile]
    let t :=
      match env.createCPUProfile with
      | some err => t ++ logCritical err
      | none => t
    let t := t ++ [.startCPUProfile env.createCPUProfile.isNone]
    let t := t ++ [.logInfo "CPU profiling started..."]
    (t, .stopCPUProfile :: d)
  else (t, d)

/-- Source `Run`, lines 119-152: metrics, main loop, memory profile.  Gives the
calls made and the way the body stops. -/
def runMain (fl : Flags) (env : Env) (cfg : AgentConfig) : List Event × Stop :=
  -- Initialize dogstatsd client
  let t := [Event.metricsConfigure ["version:" ++ env.infoVersion]]
  match env.metricsConfigure with
  | some err =>
    (t ++ (Exitf ("cannot configure dogstatsd: " ++ err)).1,
      (Exitf ("cannot configure dogstatsd: " ++ err)).2)
  | none =>
    -- count the number of times the agent started
    let t := t ++ [.metricsCount "datadog.trace_agent.started" 1]
    -- Seed rand
    let t := t ++ [.randSeed env.now]
    let t := t ++ [.newAgent]
    let t := t ++ [.logInfo ("trace-agent running on host " ++ cfg.Hostname)]
    let t := t ++ [.agentRun]
    if env.mainLoopReturns = false then (t, .block)
    else
      -- collect memory profile
      if fl.MemProfile ≠ "" then
        let t := t ++ [.osCreate fl.MemProfile]
        let t :=
          match env.createMemProfile with
          | some err => t ++ logCritical ("could not create memory profile: " ++ err)
          | none => t
        -- get up-to-date statistics
        let t := t ++ [.runtimeGC]
        let t := t ++ [.heapWriteTo env.createMemProfile.isNone]
        let t :=
          match env.heapWriteTo with
          | some err => t ++ logCritical ("could not write memory profile: " ++ err)
          | none => t
        let t := t ++ [.fileClose]
        (t, .ret)
      else (t, .ret)

/-- Source `Run`, lines 91-117: runtime configuration, info, disabled agent,
then `runMain`.  Gives the calls made and the way the body stops. -/
def runConfigured (fl : Flags) (env : Env) : List Event × Stop :=
  let t := [Event.configLoad fl.ConfigPath]
  match env.configLoad with
  | .error err => (t ++ (Exitf err).1, (Exitf err).2)
  | .ok cfg =>
    let t := t ++ [.initInfo] -- for expvar & -info option
    match env.initInfo with
    | some err => (t, .panic err)
    | none =>
      if fl.Info then
        let t := t ++ [.info]
        match env.info with
        | some err =>
          (t ++ [.stdoutWriteString ("failed to print info: " ++ err ++ "\n")], .exit 1)
        | none => (t, .ret)
      else
        -- Exit if tracing is not enabled
        if !cfg.Enabled then
          let t := t ++ [.logInfo agentDisabledMessage]
          -- a sleep is necessary to ensure that supervisor registers this process as "STARTED"
          let t := t ++ [.sleep (5 * second)]
          (t, .ret)
        else (t ++ (runMain fl env cfg).1, (runMain fl env cfg).2)

/-- Source `Run`, lines 32-152, up to the point where the body stops: the calls
made, the deferred calls registered (last registered first) and the way the
body stops.  Lines 72-89 are here, the others in `runStartup`, `runConfigured`
and `runMain`. -/
def RunBody (fl : Flags) (env : Env) : List Event × List Deferred × Stop :=
  let t := (runStartup fl env).1
  let d := (runStartup fl env).2
  if fl.Version then
    (t ++ [.print env.versionString], d, .ret)
  else
    if !fl.Info && fl.PIDFilePath ≠ "" then
      let t := t ++ [.writePID fl.PIDFilePath]
      match env.writePID with
      | some err =>
        (t ++ [.logErrorf ("Error while writing PID file, exiting: " ++ err)], d, .exit 1)
      | none =>
        let t := t ++ [.logInfo ("pid \x27" ++ Gce.fmtInt env.pid
          ++ "\x27 written to pid file \x27" ++ fl.PIDFilePath ++ "\x27")]
        -- remove pidfile if set
        let d := Deferred.removePID fl.PIDFilePath :: d
        (t ++ (runConfigured fl env).1, d, (runConfigured fl env).2)
    else (t ++ (runConfigured fl env).1, d, (runConfigured fl env).2)

/-- Source `Run` (run.go, lines 32-152), the entry point of the agent: the
body, then the deferred calls as the way of stopping commands. -/
def Run (fl : Flags) (env : Env) : Result :=
  finish (RunBody fl env).1 (RunBody fl env).2.1 (RunBody fl env).2.2

end Agent

namespace Agent

/-! ## Notions used by the statements about `run.go` -/

/-- The stage of section 4.1 a call belongs to; `none` for the logging calls,
the file creations and the deferred calls, which several stages share. -/
def Event.stage : Event → Option Nat
  | .setupConfig _ => some 1
  | .setupLogger _ _ _ _ _ _ => some 2
  | .startCPUProfile _ => some 3
  | .print _ => some 4
  | .writePID _ => some 5
  | .configLoad _ => some 6
  | .initInfo => some 7
  | .info => some 8
  | .stdoutWriteString _ => some 8
  | .sleep _ => some 9
  | .metricsConfigure _ => some 10
  | .metricsCount _ _ => some 11
  | .randSeed _ => some 12
  | .newAgent => some 13
  | .agentRun => some 13
  | .runtimeGC => some 14
  | .heapWriteTo _ => some 14
  | .fileClose => some 14
  | _ => none

/-- The calls made by the deferred functions of `Run`. -/
def Event.isDeferredCall : Event → Bool
  | .osRemove _ => true
  | .stopCPUProfile => true
  | .logOnPanic _ => true
  | .crashRecord _ => true
  | _ => false

/-- No call of a stage after stage `k` is in the trace. -/
def NoStageAfter (k : Nat) (t : List Event) : Prop :=
  ∀ e ∈ t, ∀ n, e.stage = some n → n ≤ k

/-- The durations of the calls of `time.Sleep` in a trace, in nanoseconds. -/
def sleeps : List Event → List Nat
  | [] => []
  | .sleep n :: t => n :: sleeps t
  | _ :: t => sleeps t

/-- The paths of the calls of `os.Remove` in a trace. -/
def removals : List Event → List String
  | [] => []
  | .osRemove p :: t => p :: removals t
  | _ :: t => removals t

/-- Stage 5 is attempted: the guard of line 77, once the version check is
passed. -/
def WritesPID (fl : Flags) : Prop :=
  fl.Version = false ∧ fl.Info = false ∧ fl.PIDFilePath ≠ ""

/-- The run gets to stage 6: no version print, and the PID file, if it is to
be written, is written without error. -/
def ReachesConfigLoad (fl : Flags) (env : Env) : Prop :=
  fl.Version = false ∧ (WritesPID fl → env.writePID = none)

/-- The PID file is acquired: stage 5 is attempted and the write succeeds. -/
def PidAcquired (fl : Flags) (env : Env) : Prop :=
  WritesPID fl ∧ env.writePID = none

/-- The CPU profiler is started at stage 3. -/
def CpuStarted (fl : Flags) : Prop := fl.CPUProfile ≠ ""

/-- A stage after stage 5 halts the process fatally: the runtime configuration
does not load, or the info print fails, or the metrics configuration fails. -/
def FatalLater (fl : Flags) (env : Env) : Prop :=
  ReachesConfigLoad fl env ∧
  ((∃ err, env.configLoad = .error err) ∨
    (∃ cfg err, env.configLoad = .ok cfg ∧ env.initInfo = none ∧ fl.Info = true ∧
      env.info = some err) ∨
    (∃ cfg err, env.configLoad = .ok cfg ∧ env.initInfo = none ∧ fl.Info = false ∧
      cfg.Enabled = true ∧ env.metricsConfigure = some err))

/-- The calls of the deferred functions when `Run` leaves by a return or a
panic `p`, for the resources the run has acquired: PID-file removal first, CPU
profiler stop next, crash recorder last. -/
def unwindCalls (fl : Flags) (env : Env) (p : Option String) : List Event :=
  (if fl.Version = false ∧ fl.Info = false ∧ fl.PIDFilePath ≠ "" ∧ env.writePID = none
    then [Event.osRemove fl.PIDFilePath] else [])
  ++ (if fl.CPUProfile ≠ "" then [Event.stopCPUProfile] else [])
  ++ [Event.logOnPanic p]
  ++ (match p with
      | some e => [Event.crashRecord e]
      | none => [])

/-- The calls of a successful stage 5 (lines 78 and 84), none when the stage
is skipped. -/
def pidCalls (fl : Flags) (env : Env) : List Event :=
  if fl.Info = false ∧ fl.PIDFilePath ≠ "" then
    [.writePID fl.PIDFilePath,
      .logInfo ("pid \x27" ++ Gce.fmtInt env.pid ++ "\x27 written to pid file \x27"
        ++ fl.PIDFilePath ++ "\x27")]
  else []

/-! ## Concrete inputs -/

/-- Flags of a plain start with a CPU profile and a PID file. -/
def flagsDaemon : Flags :=
  ⟨"/etc/datadog.yaml", "/tmp/cpu.prof", "", false, false, "/run/trace-agent.pid"⟩

/-- Flags of `-version`, all other options set as well. -/
def flagsVersion : Flags :=
  ⟨"/etc/datadog.yaml", "/tmp/cpu.prof", "/tmp/mem.prof", true, true, "/run/trace-agent.pid"⟩

/-- Flags of `-info` with a CPU profile. -/
def flagsInfo : Flags :=
  ⟨"/etc/datadog.yaml", "/tmp/cpu.prof", "", false, true, "/run/trace-agent.pid"⟩

/-- Every external call succeeds, the agent is enabled and the main loop
comes back. -/
def envOk : Env :=
  ⟨none, "", "", "/var/log/datadog/trace-agent.log", false, "info", false, false, false,
    none, "Version: 6.0", none, 4242, .ok ⟨true, "host1"⟩, none, none, none, "6.0", 1557000000,
    true, none, none⟩

/-- As `envOk`, the agent disabled by configuration. -/
def envDisabled : Env :=
  ⟨none, "", "", "/var/log/datadog/trace-agent.log", false, "info", false, false, false,
    none, "Version: 6.0", none, 4242, .ok ⟨false, "host1"⟩, none, none, none, "6.0", 1557000000,
    true, none, none⟩

/-- As `envOk`, `os.Create` of the CPU profile failing. -/
def envNoProfileFile : Env :=
  ⟨none, "", "", "/var/log/datadog/trace-agent.log", false, "info", false, false, false,
    some "open /tmp/cpu.prof: permission denied", "Version: 6.0", none, 4242,
    .ok ⟨true, "host1"⟩, none, none, none, "6.0", 1557000000, true, none, none⟩

/-- As `envOk`, `pidfile.WritePID` failing. -/
def envPidFails : Env :=
  ⟨none, "", "", "/var/log/datadog/trace-agent.log", false, "info", false, false, false,
    none, "Version: 6.0", some "permission denied", 4242, .ok ⟨true, "host1"⟩, none, none, none,
    "6.0", 1557000000, true, none, none⟩

/-- As `envOk`, `info.InitInfo` failing. -/
def envInitInfoFails : Env :=
  ⟨none, "", "", "/var/log/datadog/trace-agent.log", false, "info", false, false, false,
    none, "Version: 6.0", none, 4242, .ok ⟨true, "host1"⟩, some "expvar: already published",
    none, none, "6.0", 1557000000, true, none, none⟩

/-- As `envOk`, `info.Info` failing. -/
def envInfoFails : Env :=
  ⟨none, "", "", "/var/log/datadog/trace-agent.log", false, "info", false, false, false,
    none, "Version: 6.0", none, 4242, .ok ⟨true, "host1"⟩, none, some "connection refused",
    none, "6.0", 1557000000, true, none, none⟩

/-- As `envOk`, `metrics.Configure` failing. -/
def envMetricsFail : Env :=
  ⟨none, "", "", "/var/log/datadog/trace-agent.log", false, "info", false, false, false,
    none, "Version: 6.0", none, 4242, .ok ⟨true, "host1"⟩, none, none,
    some "statsd host unset", "6.0", 1557000000, true, none, none⟩

end Agent

/-! # Theorems -/

namespace Gce

/-! ## Auxiliary facts: strings and `SplitN` -/

theorem length_eq_zero_iff (s : String) : s.length = 0 ↔ s = "" := by
  constructor
  · intro h
    have h0 : s.data = [] := List.length_eq_zero.1 h
    exact String.ext h0
  · rintro rfl
    rfl

theorem IndexByte_none (sep : Char) (s : List Char) (h : IndexByte s sep = none) :
    s.takeWhile (· ≠ sep) = s := by
  induction s with
  | nil => rfl
  | cons c cs ih =>
    by_cases hc : c = sep
    · simp [IndexByte, hc] at h
    · cases hi : IndexByte cs sep with
      | none =>
        have := ih hi
        simp only [List.takeWhile, ne_eq, hc, not_false_eq_true, decide_True]
        rw [this]
      | some k => simp [IndexByte, hc, hi] at h

theorem IndexByte_some (sep : Char) (s : List Char) (m : Nat) (h : IndexByte s sep = some m) :
    s.take m = s.takeWhile (· ≠ sep) := by
  induction s generalizing m with
  | nil => simp [IndexByte] at h
  | cons c cs ih =>
    by_cases hc : c = sep
    · simp [IndexByte, hc] at h
      subst h
      simp [List.takeWhile, hc]
    · cases hi : IndexByte cs sep with
      | none => simp [IndexByte, hc, hi] at h
      | some k =>
        simp [IndexByte, hc, hi] at h
        subst h
        have := ih k hi
        simp only [List.take_succ_cons, List.takeWhile, ne_eq, hc, not_false_eq_true,
          decide_True]
        rw [this]

theorem SplitN_two (s : String) (hs : s ≠ "") :
    ∃ rest, SplitN s '.' 2 = firstLabel s :: rest := by
  have hlen : 0 < s.data.length := by
    by_contra hcon
    exact hs ((length_eq_zero_iff s).1 (by show s.data.length = 0; omega))
  have hmin : min 2 (s.data.length + 1) - 1 = 1 := by
    have : min 2 (s.data.length + 1) = 2 := by omega
    omega
  unfold SplitN
  simp only [hmin, splitLoop, firstLabel]
  cases hi : IndexByte s.data '.' with
  | none =>
    refine ⟨[], ?_⟩
    have := IndexByte_none _ _ hi
    simp only [OfNat.ofNat_ne_zero, if_false, List.map_cons, List.map_nil]
    rw [this]
  | some m =>
    refine ⟨[String.mk (s.data.drop (m + 1))], ?_⟩
    have := IndexByte_some _ _ m hi
    simp only [OfNat.ofNat_ne_zero, if_false, List.map_cons, List.map_nil]
    rw [this]

theorem digitValue_digitChar (k : Nat) (hk : k < 10) :
    digitValue (Nat.digitChar k) = some k := by
  interval_cases k <;> decide

theorem readAcc_toDigitsCore (fuel n : Nat) (ds : List Char) (h : n < fuel) :
    readAcc 0 (Nat.toDigitsCore 10 fuel n ds) = readAcc n ds := by
  induction fuel generalizing n ds with
  | zero => omega
  | succ f ih =>
    have hd := digitValue_digitChar (n % 10) (Nat.mod_lt _ (by omega))
    by_cases h0 : n / 10 = 0
    · have hn : n % 10 = n := Nat.mod_eq_of_lt (by omega)
      simp only [Nat.toDigitsCore, h0, if_true, readAcc, hd]
      rw [hn]; simp
    · simp only [Nat.toDigitsCore, h0, if_false]
      rw [ih (n / 10) _ (by omega)]
      simp only [readAcc, hd]
      congr 1
      omega

theorem toDigitsCore_ne_nil (fuel n : Nat) (ds : List Char) (h : ds ≠ [] ∨ 0 < fuel) :
    Nat.toDigitsCore 10 fuel n ds ≠ [] := by
  induction fuel generalizing n ds with
  | zero =>
    rcases h with h | h
    · simpa [Nat.toDigitsCore] using h
    · omega
  | succ f ih =>
    by_cases h0 : n / 10 = 0
    · simp [Nat.toDigitsCore, h0]
    · simp only [Nat.toDigitsCore, h0, if_false]
      exact ih _ _ (Or.inl (by simp))

theorem readDecimal_toDigits (n : Nat) : readDecimal (Nat.toDigits 10 n) = some n := by
  have hne : Nat.toDigits 10 n ≠ [] := toDigitsCore_ne_nil (n + 1) n [] (Or.inr (by omega))
  have hr : readAcc 0 (Nat.toDigits 10 n) = some n := by
    unfold Nat.toDigits
    rw [readAcc_toDigitsCore (n + 1) n [] (by omega)]
    rfl
  cases hl : Nat.toDigits 10 n with
  | nil => exact absurd hl hne
  | cons c cs => rw [hl] at hr; exact hr

theorem isDecimalOf_toString (s : Int) : IsDecimalOf (toString s) s := by
  cases s with
  | ofNat m =>
    left
    refine ⟨Int.ofNat_nonneg m, ?_⟩
    show readDecimal (Nat.toDigits 10 m) = some m
    exact readDecimal_toDigits m
  | negSucc m =>
    right
    refine ⟨Int.negSucc_lt_zero m, Nat.toDigits 10 (m + 1), ?_, ?_⟩
    · show ("-" ++ Nat.repr (m + 1)).data = _
      simp [String.data_append, Nat.repr, List.asString]
    · rw [readDecimal_toDigits]
      rfl

theorem getResponse_ok (w : World) (url b : String) (hw : w url = .response 200 (.ok b))
    (hb : b ≠ "") : (getResponse w url).1 = (b, none) := by
  have hlen : ¬ b.length = 0 := fun h => hb ((length_eq_zero_iff b).1 h)
  simp [getResponse, hw, hlen]

theorem getResponse_nonempty (w : World) (url s : String)
    (h : (getResponse w url).1 = (s, none)) : s ≠ "" := by
  unfold getResponse at h
  cases hw : w url with
  | requestError e => simp [hw] at h
  | transportError e => simp [hw] at h
  | response status body =>
    by_cases hs : status = 200
    · cases body with
      | error e => simp [hw, hs] at h
      | ok all =>
        by_cases hl : all.length = 0
        · simp [hw, hs, hl] at h
        · simp [hw, hs, hl] at h
          subst h
          exact fun h0 => hl ((length_eq_zero_iff all).2 h0)
    · simp [hw, hs] at h

theorem GetHostname_of_getResponse (w : World) (base : String) :
    GetHostname w base =
      match (getResponse w (base ++ "/instance/hostname")).1 with
      | (_, some err) => ("", some ("unable to retrieve hostname from GCE: " ++ err))
      | (hostname, none) => (hostname, none) := rfl

theorem GetHostname_nonempty (w : World) (base s : String) (h : GetHostname w base = (s, none)) :
    s ≠ "" := by
  rw [GetHostname_of_getResponse] at h
  rcases hr : (getResponse w (base ++ "/instance/hostname")).1 with ⟨v, _ | err⟩
  · rw [hr] at h
    simp at h
    subst h
    exact getResponse_nonempty w _ v hr
  · rw [hr] at h
    simp at h

/-! ## Claims about `gce.go` -/

/-- C6: when the hostname endpoint serves a non-empty body `h` and the project
endpoint a non-empty body `p`, both with status 200, `GetHostAlias` returns
without error (and without a run-time panic) the part of `h` before its first
"." followed by "." and `p`. -/
theorem GetHostAlias_first_label (w : World) (base h p : String) (hh : h ≠ "") (hp : p ≠ "")
    (hw1 : w (base ++ "/instance/hostname") = .response 200 (.ok h))
    (hw2 : w (base ++ "/project/project-id") = .response 200 (.ok p)) :
    GetHostAlias w base = some (firstLabel h ++ "." ++ p, none) := by
  obtain ⟨rest, hsplit⟩ := SplitN_two h hh
  unfold GetHostAlias
  rw [getResponse_ok w _ h hw1 hh]
  simp only [hsplit]
  rw [getResponse_ok w _ p hw2 hp]

/-- Witness of C6: hostname "myhost.example.com" and project "proj-123" give
"myhost.proj-123". -/
theorem GetHostAlias_first_label_witness :
    GetHostAlias (aliasWorld metadataURL "myhost.example.com" "proj-123") metadataURL
        = some (firstLabel "myhost.example.com" ++ "." ++ "proj-123", none) ∧
      firstLabel "myhost.example.com" ++ "." ++ "proj-123" = "myhost.proj-123" :=
  ⟨GetHostAlias_first_label (aliasWorld metadataURL "myhost.example.com" "proj-123")
      metadataURL "myhost.example.com" "proj-123" (by decide) (by decide) rfl rfl,
    by decide⟩

/-- C7: a response with status 200 and a zero-length body makes `getResponse`
return the empty-body error; whenever `getResponse` returns a nil error its
string is non-empty; hence neither `GetHostname` nor `HostnameProvider` returns
an empty hostname with a nil error. -/
theorem getResponse_never_empty (w : World) (url base : String) :
    (w url = .response 200 (.ok "") →
      (getResponse w url).1 = ("", some "empty response body")) ∧
    (∀ s, (getResponse w url).1 = (s, none) → s ≠ "") ∧
    (∀ s, GetHostname w base = (s, none) → s ≠ "") ∧
    (∀ s, HostnameProvider w base = (s, none) → s ≠ "") := by
  refine ⟨?_, fun s h => getResponse_nonempty w url s h,
    fun s h => GetHostname_nonempty w base s h, fun s h => GetHostname_nonempty w base s h⟩
  intro hw
  simp [getResponse, hw]

/-- Witness of C7: a world answering 200 with an empty body, and one answering
200 with the body "host1". -/
theorem getResponse_never_empty_witness :
    (getResponse (constWorld 200 "") "http://metadata/x").1 = ("", some "empty response body") ∧
    (HostnameProvider (constWorld 200 "host1") metadataURL = ("host1", none) ∧ "host1" ≠ "") :=
  ⟨(getResponse_never_empty (constWorld 200 "") "http://metadata/x" metadataURL).1 rfl,
    by decide,
    (getResponse_never_empty (constWorld 200 "host1") "http://metadata/x" metadataURL).2.2.2
      "host1" (by decide)⟩

/-- C8: a response with a status code `s` other than 200 makes `getResponse`
return the empty string and an error whose text is "status code ", the
decimal representation of `s`, " trying to GET " and the URL: the text in the
place of the code is a decimal numeral that denotes `s`, and the message
embeds it and the URL; the result does not depend on the body, which is not
read. -/
theorem getResponse_bad_status (w : World) (url : String) (s : Int)
    (body : Except String String) (hs : s ≠ 200) (hw : w url = .response s body) :
    (getResponse w url).1
        = ("", some ("status code " ++ toString s ++ " trying to GET " ++ url)) ∧
      IsDecimalOf (toString s) s ∧
      Embeds ("status code " ++ toString s ++ " trying to GET " ++ url) (toString s) ∧
      Embeds ("status code " ++ toString s ++ " trying to GET " ++ url) url ∧
      HttpEvent.readAll ∉ (getResponse w url).2 := by
  refine ⟨by simp [getResponse, hw, hs, fmtInt], isDecimalOf_toString s, ?_, ?_,
    by simp [getResponse, hw, hs]⟩
  · exact ⟨"status code ".data, " trying to GET ".data ++ url.data, by simp [String.data_append]⟩
  · exact ⟨"status code ".data ++ (toString s).data ++ " trying to GET ".data, [],
      by simp [String.data_append]⟩

/-- Witness of C8: status 404 gives an error embedding "404", and status 500
one embedding "500". -/
theorem getResponse_bad_status_witness :
    ((getResponse (constWorld 404 "not found") "http://metadata/x").1
        = ("", some "status code 404 trying to GET http://metadata/x") ∧
      IsDecimalOf "404" 404 ∧
      Embeds "status code 404 trying to GET http://metadata/x" "404") ∧
    ((getResponse (constWorld 500 "oops") "http://metadata/x").1
        = ("", some "status code 500 trying to GET http://metadata/x") ∧
      IsDecimalOf "500" 500 ∧
      Embeds "status code 500 trying to GET http://metadata/x" "500") :=
  ⟨⟨(getResponse_bad_status (constWorld 404 "not found") "http://metadata/x" 404
        (.ok "not found") (by decide) rfl).1,
      (getResponse_bad_status (constWorld 404 "not found") "http://metadata/x" 404
        (.ok "not found") (by decide) rfl).2.1,
      (getResponse_bad_status (constWorld 404 "not found") "http://metadata/x" 404
        (.ok "not found") (by decide) rfl).2.2.1⟩,
    ⟨(getResponse_bad_status (constWorld 500 "oops") "http://metadata/x" 500
        (.ok "oops") (by decide) rfl).1,
      (getResponse_bad_status (constWorld 500 "oops") "http://metadata/x" 500
        (.ok "oops") (by decide) rfl).2.1,
      (getResponse_bad_status (constWorld 500 "oops") "http://metadata/x" 500
        (.ok "oops") (by decide) rfl).2.2.1⟩⟩

/-- C9, as stated, fails: the body "host1.example.com" followed by a newline
is returned with its newline, not trimmed, and the body " " of white space
alone is returned without error. -/
theorem GetHostname_trim_counterexample :
    GetHostname (constWorld 200 "host1.example.com\n") metadataURL
        ≠ (specTrimSpace "host1.example.com\n", none) ∧
      specTrimSpace "host1.example.com\n" = "host1.example.com" ∧
      GetHostname (constWorld 200 "host1.example.com\n") metadataURL
        = ("host1.example.com\n", none) ∧
      specTrimSpace " " = "" ∧
      GetHostname (constWorld 200 " ") metadataURL = (" ", none) := by
  decide

/-- C9, amended: for a response with status 200 whose body `b` is read without
error, `GetHostname` returns `b` unchanged when `b` has a non-zero length, and
it returns a nil error exactly when the status is 200 and the body, untrimmed,
has a non-zero length. -/
theorem GetHostname_untrimmed (w : World) (base : String) :
    (∀ b, w (base ++ "/instance/hostname") = .response 200 (.ok b) → b ≠ "" →
      GetHostname w base = (b, none)) ∧
    ((GetHostname w base).2 = none ↔
      ∃ b, w (base ++ "/instance/hostname") = .response 200 (.ok b) ∧ b ≠ "") := by
  constructor
  · intro b hw hb
    rw [GetHostname_of_getResponse, getResponse_ok w _ b hw hb]
  · constructor
    · intro h
      rw [GetHostname_of_getResponse] at h
      unfold getResponse at h
      cases hw : w (base ++ "/instance/hostname") with
      | requestError e => simp [hw] at h
      | transportError e => simp [hw] at h
      | response status body =>
        by_cases hs : status = 200
        · cases body with
          | error e => simp [hw, hs] at h
          | ok all =>
            by_cases hl : all.length = 0
            · simp [hw, hs, hl] at h
            · exact ⟨all, by rw [hs], fun h0 => hl ((length_eq_zero_iff all).2 h0)⟩
        · simp [hw, hs] at h
    · rintro ⟨b, hw, hb⟩
      rw [GetHostname_of_getResponse, getResponse_ok w _ b hw hb]

/-- Witness of the amended C9: the body "host1.example.com" with a trailing
newline comes back with the newline. -/
theorem GetHostname_untrimmed_witness :
    GetHostname (constWorld 200 "host1.example.com\n") metadataURL
      = ("host1.example.com\n", none) :=
  (GetHostname_untrimmed (constWorld 200 "host1.example.com\n") metadataURL).1
    "host1.example.com\n" rfl (by decide)

end Gce

namespace Agent

/-! ## Auxiliary facts: deferred calls and the segments of `Run` -/

theorem runDeferred_snd (d : List Deferred) (p : Option String) : (runDeferred d p).2 = p := by
  induction d with
  | nil => rfl
  | cons a ds ih =>
    cases a
    · cases p <;> simp [runDeferred, LogOnPanic, ih]
    · simp [runDeferred, ih]
    · simp [runDeferred, ih]

theorem finish_ret (t : List Event) (d : List Deferred) :
    finish t d .ret = ⟨t ++ (runDeferred d none).1, .returned⟩ := by
  simp [finish, runDeferred_snd]

theorem finish_panic (t : List Event) (d : List Deferred) (e : String) :
    finish t d (.panic e) = ⟨t ++ (runDeferred d (some e)).1, .panicked e⟩ := by
  simp [finish, runDeferred_snd]

theorem NoStageAfter.mono (j k : Nat) (t : List Event) (h : NoStageAfter j t) (hjk : j ≤ k) :
    NoStageAfter k t :=
  fun e he n hn => le_trans (h e he n hn) hjk

theorem NoStageAfter.append (k : Nat) (t u : List Event) (ht : NoStageAfter k t)
    (hu : NoStageAfter k u) : NoStageAfter k (t ++ u) := by
  intro e he n hn
  rcases List.mem_append.1 he with h | h
  · exact ht e h n hn
  · exact hu e h n hn

theorem NoStageAfter.of_deferred (k : Nat) (t : List Event)
    (h : ∀ e ∈ t, e.isDeferredCall = true) : NoStageAfter k t := by
  intro e he n hn
  have := h e he
  cases e <;> simp [Event.isDeferredCall, Event.stage] at this hn

theorem NoStageAfter.not_mem (k n : Nat) (t : List Event) (e : Event) (h : NoStageAfter k t)
    (hs : e.stage = some n) (hk : k < n) : e ∉ t :=
  fun he => absurd (h e he n hs) (by omega)

theorem unwindCalls_isDeferred (fl : Flags) (env : Env) (p : Option String) :
    ∀ e ∈ unwindCalls fl env p, e.isDeferredCall = true := by
  unfold unwindCalls
  intro e he
  simp only [List.mem_append] at he
  rcases he with ((he | he) | he) | he
  · split at he
    · simp at he; subst he; rfl
    · simp at he
  · split at he
    · simp at he; subst he; rfl
    · simp at he
  · simp at he; subst he; rfl
  · cases p with
    | none => simp at he
    | some x => simp at he; subst he; rfl

theorem runStartup_stage (fl : Flags) (env : Env) : NoStageAfter 3 (runStartup fl env).1 := by
  unfold NoStageAfter runStartup
  cases hs : env.setupConfig <;> cases hc : env.createCPUProfile <;>
    by_cases hp : fl.CPUProfile = "" <;>
    simp [hp, logCritical, Event.stage]

theorem runStartup_notDeferred (fl : Flags) (env : Env) :
    ∀ e ∈ (runStartup fl env).1, e.isDeferredCall = false := by
  unfold runStartup
  cases hs : env.setupConfig <;> cases hc : env.createCPUProfile <;>
    by_cases hp : fl.CPUProfile = "" <;>
    simp [hp, logCritical, Event.isDeferredCall]

theorem runStartup_defers (fl : Flags) (env : Env) :
    (runStartup fl env).2 =
      (if fl.CPUProfile ≠ "" then [Deferred.stopCPUProfile] else []) ++ [Deferred.logOnPanic] := by
  unfold runStartup
  by_cases hp : fl.CPUProfile = "" <;> simp [hp]

theorem runMain_events (fl : Flags) (env : Env) (cfg : AgentConfig) :
    ∀ e ∈ (runMain fl env cfg).1,
      e.isDeferredCall = false ∧ ∀ n, e.stage = some n → 10 ≤ n := by
  unfold runMain
  cases hm : env.metricsConfigure <;> cases hl : env.mainLoopReturns <;>
    by_cases hp : fl.MemProfile = "" <;> cases hc : env.createMemProfile <;>
    cases hh : env.heapWriteTo <;>
    simp [hp, Exitf, logCritical, Event.stage, Event.isDeferredCall]

theorem runConfigured_events (fl : Flags) (env : Env) :
    ∀ e ∈ (runConfigured fl env).1,
      e.isDeferredCall = false ∧ ∀ n, e.stage = some n → 6 ≤ n := by
  unfold runConfigured
  cases hc : env.configLoad with
  | error err => simp [Exitf, Event.stage, Event.isDeferredCall]
  | ok cfg =>
    cases hi : env.initInfo with
    | some err => simp [Event.stage, Event.isDeferredCall]
    | none =>
      cases hf : fl.Info with
      | true => cases hn : env.info <;> simp [Event.stage, Event.isDeferredCall]
      | false =>
        cases he : cfg.Enabled with
        | false => simp [he, Event.stage, Event.isDeferredCall]
        | true =>
          simp only [he, Bool.not_true, Bool.false_eq_true, if_false, List.mem_append]
          rintro e ((h | h) | h)
          · simp at h; subst h; simp [Event.stage, Event.isDeferredCall]
          · simp at h; subst h; simp [Event.stage, Event.isDeferredCall]
          · have := runMain_events fl env cfg e h
            exact ⟨this.1, fun n hn => le_trans (by omega) (this.2 n hn)⟩

theorem RunBody_version (fl : Flags) (env : Env) (hv : fl.Version = true) :
    (RunBody fl env).1 = (runStartup fl env).1 ++ [.print env.versionString] ∧
      (RunBody fl env).2.2 = .ret := by
  simp [RunBody, hv]

theorem RunBody_pidfail (fl : Flags) (env : Env) (err : String) (hw : WritesPID fl)
    (he : env.writePID = some err) :
    (RunBody fl env).1 = (runStartup fl env).1 ++ [.writePID fl.PIDFilePath,
        .logErrorf ("Error while writing PID file, exiting: " ++ err)] ∧
      (RunBody fl env).2.2 = .exit 1 := by
  obtain ⟨hv, hi, hp⟩ := hw
  simp [RunBody, hv, hi, hp, he]

theorem RunBody_reach (fl : Flags) (env : Env) (h : ReachesConfigLoad fl env) :
    (RunBody fl env).1 = (runStartup fl env).1 ++ pidCalls fl env ++ (runConfigured fl env).1 ∧
      (RunBody fl env).2.2 = (runConfigured fl env).2 := by
  obtain ⟨hv, hw⟩ := h
  by_cases hg : fl.Info = false ∧ fl.PIDFilePath ≠ ""
  · have hn : env.writePID = none := hw ⟨hv, hg.1, hg.2⟩
    simp [RunBody, hv, hg.1, hg.2, hn, pidCalls]
  · have hg2 : ¬ ((!fl.Info && decide (fl.PIDFilePath ≠ "")) = true) := by
      simpa using hg
    simp only [RunBody, hv, Bool.false_eq_true, if_false, hg2, pidCalls, hg, List.append_nil,
      and_self]

theorem RunBody_defers (fl : Flags) (env : Env) (p : Option String) :
    (runDeferred (RunBody fl env).2.1 p).1 = unwindCalls fl env p := by
  unfold unwindCalls
  cases hv : fl.Version with
  | true =>
    by_cases hc : fl.CPUProfile = "" <;> cases p <;>
      simp [RunBody, hv, runStartup_defers, hc, runDeferred, LogOnPanic]
  | false =>
    by_cases hg : fl.Info = false ∧ fl.PIDFilePath ≠ ""
    · cases hw : env.writePID with
      | some err =>
        by_cases hc : fl.CPUProfile = "" <;> cases p <;>
          simp [RunBody, hv, hg.1, hg.2, hw, runStartup_defers, hc, runDeferred, LogOnPanic]
      | none =>
        by_cases hc : fl.CPUProfile = "" <;> cases p <;>
          simp [RunBody, hv, hg.1, hg.2, hw, runStartup_defers, hc, runDeferred, LogOnPanic]
    · have hg2 : ¬ ((!fl.Info && decide (fl.PIDFilePath ≠ "")) = true) := by
        simpa using hg
      have hg3 : ¬ (fl.Info = false ∧ fl.PIDFilePath ≠ "" ∧ env.writePID = none) :=
        fun h => hg ⟨h.1, h.2.1⟩
      by_cases hc : fl.CPUProfile = "" <;> cases p <;>
        simp only [RunBody, hv, hg2, hg3, runStartup_defers, hc, runDeferred, LogOnPanic] <;>
        simp [hc, runDeferred, LogOnPanic]

theorem pidCalls_events (fl : Flags) (env : Env) :
    ∀ e ∈ pidCalls fl env, e.isDeferredCall = false ∧ ∀ n, e.stage = some n → n = 5 := by
  unfold pidCalls
  split <;> simp [Event.stage, Event.isDeferredCall]

theorem RunBody_notDeferred (fl : Flags) (env : Env) :
    ∀ e ∈ (RunBody fl env).1, e.isDeferredCall = false := by
  cases hv : fl.Version with
  | true =>
    rw [(RunBody_version fl env hv).1]
    intro e he
    rcases List.mem_append.1 he with h | h
    · exact runStartup_notDeferred fl env e h
    · simp at h; subst h; rfl
  | false =>
    by_cases hw : WritesPID fl → env.writePID = none
    · rw [(RunBody_reach fl env ⟨hv, hw⟩).1]
      intro e he
      rcases List.mem_append.1 he with h | h
      · rcases List.mem_append.1 h with h | h
        · exact runStartup_notDeferred fl env e h
        · exact (pidCalls_events fl env e h).1
      · exact (runConfigured_events fl env e h).1
    · have hw1 : WritesPID fl := by
        by_contra hcon
        exact hw (fun h => absurd h hcon)
      cases hw2 : env.writePID with
      | none => exact absurd (fun _ => hw2) hw
      | some err =>
        rw [(RunBody_pidfail fl env err hw1 hw2).1]
        intro e he
        rcases List.mem_append.1 he with h | h
        · exact runStartup_notDeferred fl env e h
        · simp at h
          rcases h with h | h <;> subst h <;> rfl

theorem Run_of_ret (fl : Flags) (env : Env) (h : (RunBody fl env).2.2 = .ret) :
    Run fl env = ⟨(RunBody fl env).1 ++ unwindCalls fl env none, .returned⟩ := by
  rw [Run, h, finish_ret, RunBody_defers]

theorem Run_of_panic (fl : Flags) (env : Env) (e : String)
    (h : (RunBody fl env).2.2 = .panic e) :
    Run fl env = ⟨(RunBody fl env).1 ++ unwindCalls fl env (some e), .panicked e⟩ := by
  rw [Run, h, finish_panic, RunBody_defers]

theorem Run_of_exit (fl : Flags) (env : Env) (code : Int)
    (h : (RunBody fl env).2.2 = .exit code) :
    Run fl env = ⟨(RunBody fl env).1, .exited code⟩ := by
  rw [Run, h, finish]

theorem Run_of_block (fl : Flags) (env : Env) (h : (RunBody fl env).2.2 = .block) :
    Run fl env = ⟨(RunBody fl env).1, .running⟩ := by
  rw [Run, h, finish]

theorem runStartup_logInfo (fl : Flags) (env : Env) (m : String)
    (h : Event.logInfo m ∈ (runStartup fl env).1) : m = "CPU profiling started..." := by
  unfold runStartup at h
  cases hs : env.setupConfig <;> cases hc : env.createCPUProfile <;>
    by_cases hp : fl.CPUProfile = "" <;>
    simp [hs, hc, hp, logCritical] at h <;> exact h

theorem sleeps_append (t u : List Event) : sleeps (t ++ u) = sleeps t ++ sleeps u := by
  induction t with
  | nil => rfl
  | cons a t ih => cases a <;> simp [sleeps, ih]

theorem sleeps_eq_nil (t : List Event) (h : ∀ n, Event.sleep n ∉ t) : sleeps t = [] := by
  induction t with
  | nil => rfl
  | cons a t ih =>
    have ht : ∀ n, Event.sleep n ∉ t := fun n hn => h n (List.mem_cons_of_mem _ hn)
    cases a <;> simp [sleeps, ih ht]
    exact h _ (List.mem_cons_self _ _)

theorem removals_append (t u : List Event) : removals (t ++ u) = removals t ++ removals u := by
  induction t with
  | nil => rfl
  | cons a t ih => cases a <;> simp [removals, ih]

theorem removals_eq_nil (t : List Event) (h : ∀ p, Event.osRemove p ∉ t) : removals t = [] := by
  induction t with
  | nil => rfl
  | cons a t ih =>
    have ht : ∀ p, Event.osRemove p ∉ t := fun p hp => h p (List.mem_cons_of_mem _ hp)
    cases a <;> simp [removals, ih ht]
    exact h _ (List.mem_cons_self _ _)

theorem not_mem_of_notDeferred (t : List Event) (e : Event)
    (h : ∀ x ∈ t, x.isDeferredCall = false) (he : e.isDeferredCall = true) : e ∉ t := by
  intro hmem
  have := h e hmem
  rw [he] at this
  exact absurd this (by decide)

theorem not_mem_of_deferred (t : List Event) (e : Event)
    (h : ∀ x ∈ t, x.isDeferredCall = true) (he : e.isDeferredCall = false) : e ∉ t := by
  intro hmem
  have := h e hmem
  rw [he] at this
  exact absurd this (by decide)

theorem pidCalls_stage (fl : Flags) (env : Env) : NoStageAfter 5 (pidCalls fl env) :=
  fun e he n hn => le_of_eq ((pidCalls_events fl env e he).2 n hn)

theorem writePID_mem_RunBody (fl : Flags) (env : Env) (p : String) :
    Event.writePID p ∈ (RunBody fl env).1 ↔ WritesPID fl ∧ p = fl.PIDFilePath := by
  have hs : Event.writePID p ∉ (runStartup fl env).1 :=
    NoStageAfter.not_mem 3 5 _ _ (runStartup_stage fl env) rfl (by omega)
  have hcf : Event.writePID p ∉ (runConfigured fl env).1 := fun h =>
    absurd ((runConfigured_events fl env _ h).2 5 rfl) (by omega)
  cases hv : fl.Version with
  | true =>
    rw [(RunBody_version fl env hv).1]
    simp [hs, WritesPID, hv]
  | false =>
    by_cases hg : fl.Info = false ∧ fl.PIDFilePath ≠ ""
    · have hw : WritesPID fl := ⟨hv, hg.1, hg.2⟩
      cases hwp : env.writePID with
      | some err =>
        rw [(RunBody_pidfail fl env err hw hwp).1]
        simp [hs, hw]
      | none =>
        rw [(RunBody_reach fl env ⟨hv, fun _ => hwp⟩).1]
        simp [hs, hcf, hw, pidCalls, hg.1, hg.2]
    · have hnw : ¬ WritesPID fl := fun h => hg ⟨h.2.1, h.2.2⟩
      rw [(RunBody_reach fl env ⟨hv, fun h => absurd h hnw⟩).1]
      simp only [List.mem_append, hs, hcf, pidCalls, hg, if_false, List.not_mem_nil, or_self,
        hnw, false_and]

theorem Run_trace_cases (fl : Flags) (env : Env) :
    ((Run fl env).trace = (RunBody fl env).1 ∧ (Run fl env).outcome ≠ .returned) ∨
      ∃ p, (Run fl env).trace = (RunBody fl env).1 ++ unwindCalls fl env p ∧
        ((Run fl env).outcome = .returned → p = none) := by
  cases hstop : (RunBody fl env).2.2 with
  | ret => exact Or.inr ⟨none, by rw [Run_of_ret fl env hstop], fun _ => rfl⟩
  | exit code => exact Or.inl (by rw [Run_of_exit fl env code hstop]; simp)
  | panic e => exact Or.inr ⟨some e, by rw [Run_of_panic fl env e hstop], by
      rw [Run_of_panic fl env e hstop]; simp⟩
  | block => exact Or.inl (by rw [Run_of_block fl env hstop]; simp)

theorem osRemove_mem_unwindCalls (fl : Flags) (env : Env) (q : Option String) (p : String)
    (h : Event.osRemove p ∈ unwindCalls fl env q) : PidAcquired fl env ∧ p = fl.PIDFilePath := by
  unfold unwindCalls at h
  by_cases hg : fl.Version = false ∧ fl.Info = false ∧ fl.PIDFilePath ≠ "" ∧ env.writePID = none
  · refine ⟨⟨⟨hg.1, hg.2.1, hg.2.2.1⟩, hg.2.2.2⟩, ?_⟩
    by_cases hc : fl.CPUProfile = "" <;> cases q <;> simpa [hg, hc] using h
  · by_cases hc : fl.CPUProfile = "" <;> cases q <;> simp [hg, hc] at h

theorem unwindCalls_acquired (fl : Flags) (env : Env) (q : Option String)
    (h : PidAcquired fl env) :
    ∃ post, unwindCalls fl env q = Event.osRemove fl.PIDFilePath :: post ∧
      (∀ e ∈ post, e.isDeferredCall = true) ∧ removals post = [] := by
  obtain ⟨⟨hv, hi, hp⟩, hw⟩ := h
  unfold unwindCalls
  by_cases hc : fl.CPUProfile = "" <;> cases q <;>
    simp [hv, hi, hp, hw, hc, removals, Event.isDeferredCall]

/-! ## Claims about `run.go` -/

/-- C3: with the version flag set, whatever the other flags and the external
calls, `Run` prints the version string and returns normally; the only calls
before the print are those of stages 1 to 3, the only calls after it are the
deferred ones, and no call of a later stage is made: no PID-file write, no
configuration load, no info initialisation or print, no disabled-agent notice
or sleep, no metrics call, no agent and no main loop. -/
theorem Run_version (fl : Flags) (env : Env) (hv : fl.Version = true) :
    (Run fl env).outcome = .returned ∧
    (∃ pre post, (Run fl env).trace = pre ++ [.print env.versionString] ++ post ∧
      NoStageAfter 3 pre ∧ (∀ e ∈ post, e.isDeferredCall = true)) ∧
    NoStageAfter 4 (Run fl env).trace ∧
    (∀ p, Event.writePID p ∉ (Run fl env).trace) ∧
    (∀ p, Event.configLoad p ∉ (Run fl env).trace) ∧
    Event.initInfo ∉ (Run fl env).trace ∧
    Event.info ∉ (Run fl env).trace ∧
    Event.logInfo agentDisabledMessage ∉ (Run fl env).trace ∧
    (∀ n, Event.sleep n ∉ (Run fl env).trace) ∧
    (∀ tags, Event.metricsConfigure tags ∉ (Run fl env).trace) ∧
    (∀ name v, Event.metricsCount name v ∉ (Run fl env).trace) ∧
    Event.newAgent ∉ (Run fl env).trace ∧
    Event.agentRun ∉ (Run fl env).trace := by
  have hb := RunBody_version fl env hv
  have hrun := Run_of_ret fl env hb.2
  rw [hb.1] at hrun
  have hstage : NoStageAfter 4 (Run fl env).trace := by
    rw [hrun]
    refine NoStageAfter.append _ _ _ (NoStageAfter.append _ _ _
      (NoStageAfter.mono _ _ _ (runStartup_stage fl env) (by omega)) ?_)
      (NoStageAfter.of_deferred _ _ (unwindCalls_isDeferred _ _ _))
    intro e he n hn
    simp at he
    subst he
    simp [Event.stage] at hn
    omega
  refine ⟨by rw [hrun], ⟨_, _, by rw [hrun], runStartup_stage fl env,
    unwindCalls_isDeferred fl env none⟩, hstage,
    fun p => NoStageAfter.not_mem 4 5 _ _ hstage rfl (by omega),
    fun p => NoStageAfter.not_mem 4 6 _ _ hstage rfl (by omega),
    NoStageAfter.not_mem 4 7 _ _ hstage rfl (by omega),
    NoStageAfter.not_mem 4 8 _ _ hstage rfl (by omega), ?_,
    fun n => NoStageAfter.not_mem 4 9 _ _ hstage rfl (by omega),
    fun tags => NoStageAfter.not_mem 4 10 _ _ hstage rfl (by omega),
    fun name v => NoStageAfter.not_mem 4 11 _ _ hstage rfl (by omega),
    NoStageAfter.not_mem 4 13 _ _ hstage rfl (by omega),
    NoStageAfter.not_mem 4 13 _ _ hstage rfl (by omega)⟩
  rw [hrun]
  intro hmem
  rcases List.mem_append.1 hmem with h | h
  · rcases List.mem_append.1 h with h | h
    · exact absurd (runStartup_logInfo fl env _ h) (by decide)
    · simp at h
  · exact not_mem_of_deferred _ (Event.logInfo agentDisabledMessage)
      (unwindCalls_isDeferred fl env none) rfl h

/-- Witness of C3: `-version` with every other option set and a CPU profile
file that cannot be created. -/
theorem Run_version_witness :
    flagsVersion.Version = true ∧
      (Run flagsVersion envNoProfileFile).outcome = .returned ∧
      Event.print "Version: 6.0" ∈ (Run flagsVersion envNoProfileFile).trace ∧
      (∀ p, Event.writePID p ∉ (Run flagsVersion envNoProfileFile).trace) :=
  ⟨rfl, (Run_version flagsVersion envNoProfileFile rfl).1, by decide,
    (Run_version flagsVersion envNoProfileFile rfl).2.2.2.1⟩

/-- C2: without version or info print, with the PID file written without error
when it is to be written, the runtime configuration loaded, the info subsystem
initialised and `Enabled` false, `Run` returns normally; it sleeps exactly
once, for 5 seconds, after which only the deferred calls are made; and
`metrics.Configure`, the started counter, `NewAgent` and `ta.Run` are never
called. -/
theorem Run_disabled (fl : Flags) (env : Env) (cfg : AgentConfig)
    (hv : fl.Version = false) (hi : fl.Info = false)
    (hw : fl.PIDFilePath ≠ "" → env.writePID = none)
    (hc : env.configLoad = .ok cfg) (hii : env.initInfo = none) (he : cfg.Enabled = false) :
    (Run fl env).outcome = .returned ∧
    sleeps (Run fl env).trace = [5000000000] ∧
    (∃ pre post, (Run fl env).trace = pre ++ [.sleep (5 * second)] ++ post ∧
      NoStageAfter 7 pre ∧ (∀ e ∈ post, e.isDeferredCall = true)) ∧
    NoStageAfter 9 (Run fl env).trace ∧
    (∀ tags, Event.metricsConfigure tags ∉ (Run fl env).trace) ∧
    (∀ name v, Event.metricsCount name v ∉ (Run fl env).trace) ∧
    Event.newAgent ∉ (Run fl env).trace ∧
    Event.agentRun ∉ (Run fl env).trace := by
  have hreach : ReachesConfigLoad fl env := ⟨hv, fun h => hw h.2.2⟩
  have hcfg : runConfigured fl env =
      ([.configLoad fl.ConfigPath, .initInfo, .logInfo agentDisabledMessage,
        .sleep (5 * second)], .ret) := by
    simp [runConfigured, hc, hii, hi, he]
  have hb := RunBody_reach fl env hreach
  rw [hcfg] at hb
  have hrun := Run_of_ret fl env hb.2
  rw [hb.1] at hrun
  have hpre : NoStageAfter 7 ((runStartup fl env).1 ++ pidCalls fl env
      ++ [.configLoad fl.ConfigPath, .initInfo, .logInfo agentDisabledMessage]) := by
    refine NoStageAfter.append _ _ _ (NoStageAfter.append _ _ _
      (NoStageAfter.mono _ _ _ (runStartup_stage fl env) (by omega))
      (NoStageAfter.mono _ _ _ (pidCalls_stage fl env) (by omega))) ?_
    intro e h n hn
    simp at h
    rcases h with h | h | h <;> subst h <;> simp [Event.stage] at hn <;> omega
  have htrace : (Run fl env).trace = ((runStartup fl env).1 ++ pidCalls fl env
      ++ [.configLoad fl.ConfigPath, .initInfo, .logInfo agentDisabledMessage])
      ++ [.sleep (5 * second)] ++ unwindCalls fl env none := by
    rw [hrun]; simp
  have hstage : NoStageAfter 9 (Run fl env).trace := by
    rw [htrace]
    refine NoStageAfter.append _ _ _ (NoStageAfter.append _ _ _
      (NoStageAfter.mono _ _ _ hpre (by omega)) ?_)
      (NoStageAfter.of_deferred _ _ (unwindCalls_isDeferred _ _ _))
    intro e h n hn
    simp at h
    subst h
    simp [Event.stage] at hn
    omega
  refine ⟨by rw [hrun], ?_, ⟨_, _, htrace, hpre, unwindCalls_isDeferred fl env none⟩, hstage,
    fun tags => NoStageAfter.not_mem 9 10 _ _ hstage rfl (by omega),
    fun name v => NoStageAfter.not_mem 9 11 _ _ hstage rfl (by omega),
    NoStageAfter.not_mem 9 13 _ _ hstage rfl (by omega),
    NoStageAfter.not_mem 9 13 _ _ hstage rfl (by omega)⟩
  rw [htrace, sleeps_append, sleeps_append,
    sleeps_eq_nil _ (fun n => NoStageAfter.not_mem 7 9 _ _ hpre rfl (by omega)),
    sleeps_eq_nil _ (fun n => not_mem_of_deferred _ (Event.sleep n)
      (unwindCalls_isDeferred fl env none) rfl)]
  simp [sleeps, second]

/-- Witness of C2: a daemon start with a PID file and a CPU profile, the agent
disabled by configuration. -/
theorem Run_disabled_witness :
    (Run flagsDaemon envDisabled).outcome = .returned ∧
      sleeps (Run flagsDaemon envDisabled).trace = [5000000000] ∧
      Event.agentRun ∉ (Run flagsDaemon envDisabled).trace :=
  ⟨(Run_disabled flagsDaemon envDisabled ⟨false, "host1"⟩ rfl rfl (fun _ => rfl) rfl rfl rfl).1,
    (Run_disabled flagsDaemon envDisabled ⟨false, "host1"⟩ rfl rfl (fun _ => rfl) rfl rfl rfl).2.1,
    (Run_disabled flagsDaemon envDisabled ⟨false, "host1"⟩ rfl rfl
      (fun _ => rfl) rfl rfl rfl).2.2.2.2.2.2.2⟩

/-- C10: when the run gets to stage 7 and `info.InitInfo` fails with `e`, the
body of `Run` stops by `panic(e)` and `Run` leaves by a panic with value `e`,
not by a process exit; `info.InitInfo` is the
last stage call, and it is followed by exactly these deferred calls, in this
order: the PID-file removal when the PID file was written, the CPU profiler
stop when the profiler was started, then the crash recorder
`watchdog.LogOnPanic` with the panic `e` in flight, which records it.  No info
print, disabled-agent notice, sleep, metrics call, agent or main loop. -/
theorem Run_initInfo_panics (fl : Flags) (env : Env) (cfg : AgentConfig) (e : String)
    (hr : ReachesConfigLoad fl env) (hc : env.configLoad = .ok cfg)
    (hi : env.initInfo = some e) :
    (RunBody fl env).2.2 = .panic e ∧
    (Run fl env).outcome = .panicked e ∧
    (∃ pre, (Run fl env).trace = pre ++ [.initInfo]
        ++ (if fl.Info = false ∧ fl.PIDFilePath ≠ "" then [Event.osRemove fl.PIDFilePath] else [])
        ++ (if fl.CPUProfile ≠ "" then [Event.stopCPUProfile] else [])
        ++ [.logOnPanic (some e), .crashRecord e] ∧
      NoStageAfter 6 pre ∧ (∀ x ∈ pre, x.isDeferredCall = false)) ∧
    NoStageAfter 7 (Run fl env).trace ∧
    Event.info ∉ (Run fl env).trace ∧
    (∀ n, Event.sleep n ∉ (Run fl env).trace) ∧
    (∀ tags, Event.metricsConfigure tags ∉ (Run fl env).trace) ∧
    Event.newAgent ∉ (Run fl env).trace ∧
    Event.agentRun ∉ (Run fl env).trace := by
  have hcfg : runConfigured fl env = ([.configLoad fl.ConfigPath, .initInfo], .panic e) := by
    simp [runConfigured, hc, hi]
  have hb := RunBody_reach fl env hr
  rw [hcfg] at hb
  have hrun := Run_of_panic fl env e hb.2
  rw [hb.1] at hrun
  have hunwind : unwindCalls fl env (some e) =
      (if fl.Info = false ∧ fl.PIDFilePath ≠ "" then [Event.osRemove fl.PIDFilePath] else [])
        ++ (if fl.CPUProfile ≠ "" then [Event.stopCPUProfile] else [])
        ++ [.logOnPanic (some e), .crashRecord e] := by
    unfold unwindCalls
    by_cases hg : fl.Info = false ∧ fl.PIDFilePath ≠ ""
    · have hn : env.writePID = none := hr.2 ⟨hr.1, hg.1, hg.2⟩
      simp [hr.1, hg.1, hg.2, hn]
    · have hg3 : ¬ (fl.Version = false ∧ fl.Info = false ∧ fl.PIDFilePath ≠ ""
          ∧ env.writePID = none) := fun h => hg ⟨h.2.1, h.2.2.1⟩
      simp only [hg3, hg, if_false, List.nil_append, List.append_assoc, List.singleton_append]
  have hpre : NoStageAfter 6 ((runStartup fl env).1 ++ pidCalls fl env
      ++ [.configLoad fl.ConfigPath]) := by
    refine NoStageAfter.append _ _ _ (NoStageAfter.append _ _ _
      (NoStageAfter.mono _ _ _ (runStartup_stage fl env) (by omega))
      (NoStageAfter.mono _ _ _ (pidCalls_stage fl env) (by omega))) ?_
    intro x h n hn
    simp at h
    subst h
    simp [Event.stage] at hn
    omega
  have hnd : ∀ x ∈ (runStartup fl env).1 ++ pidCalls fl env ++ [.configLoad fl.ConfigPath],
      x.isDeferredCall = false := by
    intro x h
    rcases List.mem_append.1 h with h | h
    · rcases List.mem_append.1 h with h | h
      · exact runStartup_notDeferred fl env x h
      · exact (pidCalls_events fl env x h).1
    · simp at h; subst h; rfl
  have htrace : (Run fl env).trace = ((runStartup fl env).1 ++ pidCalls fl env
      ++ [.configLoad fl.ConfigPath]) ++ [.initInfo] ++ unwindCalls fl env (some e) := by
    rw [hrun]; simp
  have hstage : NoStageAfter 7 (Run fl env).trace := by
    rw [htrace]
    refine NoStageAfter.append _ _ _ (NoStageAfter.append _ _ _
      (NoStageAfter.mono _ _ _ hpre (by omega)) ?_)
      (NoStageAfter.of_deferred _ _ (unwindCalls_isDeferred _ _ _))
    intro x h n hn
    simp at h
    subst h
    simp [Event.stage] at hn
    omega
  refine ⟨hb.2, by rw [hrun], ⟨_, ?_, hpre, hnd⟩, hstage,
    NoStageAfter.not_mem 7 8 _ _ hstage rfl (by omega),
    fun n => NoStageAfter.not_mem 7 9 _ _ hstage rfl (by omega),
    fun tags => NoStageAfter.not_mem 7 10 _ _ hstage rfl (by omega),
    NoStageAfter.not_mem 7 13 _ _ hstage rfl (by omega),
    NoStageAfter.not_mem 7 13 _ _ hstage rfl (by omega)⟩
  rw [htrace, hunwind]
  simp only [List.append_assoc]

/-- Witness of C10: a daemon start with a PID file and a CPU profile, where
`info.InitInfo` fails. -/
theorem Run_initInfo_panics_witness :
    ReachesConfigLoad flagsDaemon envInitInfoFails ∧
      (Run flagsDaemon envInitInfoFails).outcome = .panicked "expvar: already published" ∧
      (Run flagsDaemon envInitInfoFails).trace.drop 9 =
        [.osRemove "/run/trace-agent.pid", .stopCPUProfile,
          .logOnPanic (some "expvar: already published"),
          .crashRecord "expvar: already published"] :=
  ⟨⟨rfl, fun _ => rfl⟩,
    (Run_initInfo_panics flagsDaemon envInitInfoFails ⟨true, "host1"⟩
      "expvar: already published" ⟨rfl, fun _ => rfl⟩ rfl rfl).2.1,
    by decide⟩

/-- C1, as stated, fails.  With `-info` and a CPU profile the profiler is
started, the info print then fails and the process exits with status 1 through
`os.Exit`, and the profiler is never stopped; in a daemon start with a PID
file written and a CPU profile started where the metrics configuration fails,
the process exits with status 1, the PID file is not removed and the profiler
is not stopped. -/
theorem Run_fatal_release_counterexample :
    (flagsInfo.CPUProfile ≠ "" ∧ envInfoFails.info = some "connection refused" ∧
      Event.startCPUProfile true ∈ (Run flagsInfo envInfoFails).trace ∧
      (Run flagsInfo envInfoFails).outcome = .exited 1 ∧
      Event.stopCPUProfile ∉ (Run flagsInfo envInfoFails).trace) ∧
    (envMetricsFail.metricsConfigure = some "statsd host unset" ∧
      Event.writePID "/run/trace-agent.pid" ∈ (Run flagsDaemon envMetricsFail).trace ∧
      Event.startCPUProfile true ∈ (Run flagsDaemon envMetricsFail).trace ∧
      (Run flagsDaemon envMetricsFail).outcome = .exited 1 ∧
      Event.osRemove "/run/trace-agent.pid" ∉ (Run flagsDaemon envMetricsFail).trace ∧
      Event.stopCPUProfile ∉ (Run flagsDaemon envMetricsFail).trace) := by
  decide

/-- C1, amended: in every execution of `Run` in which a stage after stage 5
halts the process fatally (the runtime configuration does not load, the info
print fails, or the metrics configuration fails), the process is terminated at
once with exit status 1 and no deferred call is made: the PID file is not
removed and the CPU profiler is not stopped, whether or not they were
acquired. -/
theorem Run_fatal_skips_release (fl : Flags) (env : Env) (h : FatalLater fl env) :
    (Run fl env).outcome = .exited 1 ∧
    (∀ e ∈ (Run fl env).trace, e.isDeferredCall = false) ∧
    (∀ p, Event.osRemove p ∉ (Run fl env).trace) ∧
    Event.stopCPUProfile ∉ (Run fl env).trace := by
  obtain ⟨hr, hcase⟩ := h
  have hstop : (runConfigured fl env).2 = .exit 1 := by
    rcases hcase with ⟨err, hc⟩ | ⟨cfg, err, hc, hi, hf, he⟩ | ⟨cfg, err, hc, hi, hf, hen, hm⟩
    · simp [runConfigured, hc, Exitf]
    · simp [runConfigured, hc, hi, hf, he]
    · simp [runConfigured, hc, hi, hf, hen, runMain, hm, Exitf]
  have hb := RunBody_reach fl env hr
  rw [hstop] at hb
  have hrun := Run_of_exit fl env 1 hb.2
  have hnd : ∀ e ∈ (Run fl env).trace, e.isDeferredCall = false := by
    rw [hrun]
    exact RunBody_notDeferred fl env
  exact ⟨by rw [hrun], hnd, fun p => not_mem_of_notDeferred _ _ hnd rfl,
    not_mem_of_notDeferred _ _ hnd rfl⟩

/-- Witness of the amended C1: a daemon start with the PID file written and the
CPU profiler started, where `metrics.Configure` fails. -/
theorem Run_fatal_skips_release_witness :
    FatalLater flagsDaemon envMetricsFail ∧ PidAcquired flagsDaemon envMetricsFail ∧
      CpuStarted flagsDaemon ∧ (Run flagsDaemon envMetricsFail).outcome = .exited 1 ∧
      (∀ p, Event.osRemove p ∉ (Run flagsDaemon envMetricsFail).trace) :=
  ⟨⟨⟨rfl, fun _ => rfl⟩, Or.inr (Or.inr ⟨⟨true, "host1"⟩, "statsd host unset",
      rfl, rfl, rfl, rfl, rfl⟩)⟩,
    ⟨⟨rfl, rfl, by decide⟩, rfl⟩, (show flagsDaemon.CPUProfile ≠ "" by decide),
    (Run_fatal_skips_release flagsDaemon envMetricsFail
      ⟨⟨rfl, fun _ => rfl⟩, Or.inr (Or.inr ⟨⟨true, "host1"⟩, "statsd host unset",
        rfl, rfl, rfl, rfl, rfl⟩)⟩).1,
    (Run_fatal_skips_release flagsDaemon envMetricsFail
      ⟨⟨rfl, fun _ => rfl⟩, Or.inr (Or.inr ⟨⟨true, "host1"⟩, "statsd host unset",
        rfl, rfl, rfl, rfl, rfl⟩)⟩).2.2.1⟩

/-- C4, evaluated at the failing input: a daemon start with a CPU-profile path
whose file cannot be created.  `Run` logs the error, starts the profiler on
the invalid file, announces that profiling started and runs every later
stage; it returns normally once the main loop has come back. -/
theorem Run_profile_create_failure_continues :
    Run flagsDaemon envNoProfileFile =
      ⟨[.setupConfig "/etc/datadog.yaml",
        .setupLogger "info" "/var/log/datadog/trace-agent.log" "" false false false,
        .osCreate "/tmp/cpu.prof",
        .logCritical "open /tmp/cpu.prof: permission denied",
        .startCPUProfile false,
        .logInfo "CPU profiling started...",
        .writePID "/run/trace-agent.pid",
        .logInfo "pid \x274242\x27 written to pid file \x27/run/trace-agent.pid\x27",
        .configLoad "/etc/datadog.yaml",
        .initInfo,
        .metricsConfigure ["version:6.0"],
        .metricsCount "datadog.trace_agent.started" 1,
        .randSeed 1557000000,
        .newAgent,
        .logInfo "trace-agent running on host host1",
        .agentRun,
        .osRemove "/run/trace-agent.pid",
        .stopCPUProfile,
        .logOnPanic none],
      .returned⟩ := by
  decide

/-- C5: the PID-file lifecycle of `Run`.  (a) `pidfile.WritePID` is called
exactly when the version flag is off, info-print mode is off and the PID-file
path is non-empty, and only on that path.  (b) If that write fails, the process
exits with status 1 and the write and its error log are the last calls, after
the calls of stages 1 to 3.  (c) If the write succeeds and `Run` returns
normally, `os.Remove` is called exactly once, on the configured path, after
every call of the body and followed by deferred calls only.  (d) Every call of
`os.Remove` is on the configured path and is preceded by a successful write of
that path. -/
theorem Run_pidfile_lifecycle (fl : Flags) (env : Env) :
    (∀ p, Event.writePID p ∈ (Run fl env).trace ↔ WritesPID fl ∧ p = fl.PIDFilePath) ∧
    (∀ err, WritesPID fl → env.writePID = some err →
      (Run fl env).outcome = .exited 1 ∧
      ∃ pre, (Run fl env).trace = pre ++ [.writePID fl.PIDFilePath,
          .logErrorf ("Error while writing PID file, exiting: " ++ err)] ∧
        NoStageAfter 3 pre) ∧
    (PidAcquired fl env → (Run fl env).outcome = .returned →
      removals (Run fl env).trace = [fl.PIDFilePath] ∧
      ∃ pre post, (Run fl env).trace = pre ++ [.osRemove fl.PIDFilePath] ++ post ∧
        (∀ e ∈ pre, e.isDeferredCall = false) ∧ (∀ e ∈ post, e.isDeferredCall = true)) ∧
    (∀ p, Event.osRemove p ∈ (Run fl env).trace →
      PidAcquired fl env ∧ p = fl.PIDFilePath ∧
      ∃ pre post, (Run fl env).trace = pre ++ [.osRemove p] ++ post ∧
        Event.writePID p ∈ pre) := by
  refine ⟨?_, ?_, ?_, ?_⟩
  · intro p
    rw [← writePID_mem_RunBody fl env p]
    rcases Run_trace_cases fl env with ⟨ht, _⟩ | ⟨q, ht, _⟩
    · rw [ht]
    · rw [ht, List.mem_append]
      constructor
      · rintro (h | h)
        · exact h
        · exact absurd h (not_mem_of_deferred _ (Event.writePID p)
            (unwindCalls_isDeferred fl env q) rfl)
      · exact Or.inl
  · intro err hw he
    have hb := RunBody_pidfail fl env err hw he
    have hrun := Run_of_exit fl env 1 hb.2
    rw [hb.1] at hrun
    exact ⟨by rw [hrun], _, by rw [hrun], runStartup_stage fl env⟩
  · intro hacq hret
    rcases Run_trace_cases fl env with ⟨_, hne⟩ | ⟨q, ht, hq⟩
    · exact absurd hret hne
    · obtain ⟨post, hu, hpost, hrem⟩ := unwindCalls_acquired fl env q hacq
      rw [hu] at ht
      have hbody : removals (RunBody fl env).1 = [] :=
        removals_eq_nil _ (fun p => not_mem_of_notDeferred _ (Event.osRemove p)
          (RunBody_notDeferred fl env) rfl)
      refine ⟨?_, (RunBody fl env).1, post, by rw [ht]; simp, RunBody_notDeferred fl env, hpost⟩
      rw [ht, removals_append, hbody]
      simp [removals, hrem]
  · intro p hmem
    rcases Run_trace_cases fl env with ⟨ht, _⟩ | ⟨q, ht, _⟩
    · rw [ht] at hmem
      exact absurd hmem (not_mem_of_notDeferred _ (Event.osRemove p)
        (RunBody_notDeferred fl env) rfl)
    · rw [ht, List.mem_append] at hmem
      rcases hmem with h | h
      · exact absurd h (not_mem_of_notDeferred _ (Event.osRemove p)
          (RunBody_notDeferred fl env) rfl)
      · obtain ⟨hacq, hp⟩ := osRemove_mem_unwindCalls fl env q p h
        obtain ⟨post, hu, _, _⟩ := unwindCalls_acquired fl env q hacq
        refine ⟨hacq, hp, (RunBody fl env).1, post, ?_, ?_⟩
        · rw [ht, hu, hp]; simp
        · exact (writePID_mem_RunBody fl env p).2 ⟨hacq.1, hp⟩

/-- Witness of C5: a daemon start with the agent disabled (the PID file is
written, then removed once), and one where the write fails. -/
theorem Run_pidfile_lifecycle_witness :
    (PidAcquired flagsDaemon envDisabled ∧
      (Run flagsDaemon envDisabled).outcome = .returned ∧
      removals (Run flagsDaemon envDisabled).trace = ["/run/trace-agent.pid"]) ∧
    (WritesPID flagsDaemon ∧ envPidFails.writePID = some "permission denied" ∧
      (Run flagsDaemon envPidFails).outcome = .exited 1) :=
  ⟨⟨⟨⟨rfl, rfl, by decide⟩, rfl⟩, by decide,
      ((Run_pidfile_lifecycle flagsDaemon envDisabled).2.2.1
        ⟨⟨rfl, rfl, by decide⟩, rfl⟩ (by decide)).1⟩,
    ⟨rfl, rfl, by decide⟩, rfl,
    ((Run_pidfile_lifecycle flagsDaemon envPidFails).2.1 "permission denied"
      ⟨rfl, rfl, by decide⟩ rfl).1⟩

end Agent
